import Mathlib

/-
Verification development for the HealthOmics workflow-manifest ETL lambda
(src/lambda/manifest/lambda_function.py).

Modelling conventions:
* Python runtime values decoded from JSON are modelled by the mutual
  inductive PyVal / PyFields / PyItems (None, bool, int, str, dict, list).
  JSON floats do not occur in any claim and are omitted from the model.
* Python exceptions relevant to the code are the enum PyErr; fallible
  Python code is embedded as Except PyErr results.  An Except.error that
  escapes a function models an uncaught Python exception.
* AWS collaborators (CloudWatch Logs, S3) are modelled at their interface
  boundary: paginated APIs become call-indexed response streams
  (Nat -> page), S3 puts become an accumulated list of Write records.
* Pagination loops (while True in Python) are embedded with an explicit
  fuel parameter; a result of none means the loop did not finish within
  the given fuel.
* Python str() / repr() are modelled for the value shapes that occur here;
  control characters other than newline, carriage return and tab, and
  non-ASCII digits, are not modelled (no theorem input uses them).
-/

/-- Tag for Python exception kinds that the modelled code can raise. -/
inductive PyErr : Type where
  | valueError : PyErr
  | typeError : PyErr
  | keyError : PyErr
  | indexError : PyErr
  | runtimeError : PyErr
deriving DecidableEq, Repr

/-- Target scalar types appearing in the two manifest schemas (str, int). -/
inductive PyTy : Type where
  | tStr : PyTy
  | tInt : PyTy
deriving DecidableEq, Repr

mutual
/-- Python values as decoded from JSON log-event payloads. -/
inductive PyVal : Type where
  | null : PyVal
  | bool : Bool → PyVal
  | int : Int → PyVal
  | str : String → PyVal
  | dict : PyFields → PyVal
  | list : PyItems → PyVal
/-- Ordered fields of a Python dict (keys are unique in real dicts). -/
inductive PyFields : Type where
  | nil : PyFields
  | cons : String → PyVal → PyFields → PyFields
/-- Elements of a Python list. -/
inductive PyItems : Type where
  | nil : PyItems
  | cons : PyVal → PyItems → PyItems
end

/-- Lookup of a key in a dict's fields (first occurrence wins). -/
def fieldsLookup : PyFields → String → Option PyVal
  | .nil, _ => none
  | .cons k v rest, key => if k == key then some v else fieldsLookup rest key

/-- Positional access to a dict's fields, used to state frame properties. -/
def fieldAt : PyFields → Nat → Option (String × PyVal)
  | .nil, _ => none
  | .cons k v _, 0 => some (k, v)
  | .cons _ _ rest, n + 1 => fieldAt rest n

/-- Key list of a dict's fields, in order. -/
def fieldsKeys : PyFields → List String
  | .nil => []
  | .cons k _ rest => k :: fieldsKeys rest

/-- Number of elements of a Python list. -/
def itemsLen : PyItems → Nat
  | .nil => 0
  | .cons _ rest => itemsLen rest + 1

/-- Test for Python container values (dict or list), as in isinstance(value, (dict, list)). -/
def isContainer : PyVal → Bool
  | .dict _ => true
  | .list _ => true
  | _ => false

/-- Embedding of Python subscripting v[key] with a string key: dicts yield the
value or raise KeyError; any non-dict raises TypeError. -/
def pySubscript (v : PyVal) (key : String) : Except PyErr PyVal :=
  match v with
  | .dict fs =>
    match fieldsLookup fs key with
    | some x => .ok x
    | none => .error .keyError
  | _ => .error .typeError

/-- Single-quote character, kept out of string literals for hygiene. -/
def sglQuote : String := String.singleton (Char.ofNat 39)

/-- Escaping of one character inside a Python string repr delimited by q. -/
def reprCharEsc (q c : Char) : String :=
  if c == Char.ofNat 92 then "\\\\"
  else if c == q then String.singleton (Char.ofNat 92) ++ String.singleton q
  else if c == Char.ofNat 10 then "\\n"
  else if c == Char.ofNat 13 then "\\r"
  else if c == Char.ofNat 9 then "\\t"
  else String.singleton c

/-- Python repr of a string: single quotes preferred, double quotes when the
string holds a single quote and no double quote. -/
def pyStrRepr (s : String) : String :=
  let hasSingle := s.data.any (fun c => c == Char.ofNat 39)
  let hasDouble := s.data.any (fun c => c == Char.ofNat 34)
  let q := if hasSingle && !hasDouble then Char.ofNat 34 else Char.ofNat 39
  String.singleton q ++ String.join (s.data.map (reprCharEsc q)) ++ String.singleton q

mutual
/-- Python repr of a value (as used by str() on containers). -/
def pyRepr : PyVal → String
  | .null => "None"
  | .bool b => if b then "True" else "False"
  | .int n => toString n
  | .str s => pyStrRepr s
  | .dict fs => "\x7b" ++ pyReprFields fs ++ "\x7d"
  | .list xs => "[" ++ pyReprItems xs ++ "]"
/-- Comma-separated repr of dict fields. -/
def pyReprFields : PyFields → String
  | .nil => ""
  | .cons k v .nil => pyStrRepr k ++ ": " ++ pyRepr v
  | .cons k v rest => pyStrRepr k ++ ": " ++ pyRepr v ++ ", " ++ pyReprFields rest
/-- Comma-separated repr of list items. -/
def pyReprItems : PyItems → String
  | .nil => ""
  | .cons v .nil => pyRepr v
  | .cons v rest => pyRepr v ++ ", " ++ pyReprItems rest
end

/-- Python str() of a value: strings pass through, everything else reprs. -/
def pyStr : PyVal → String
  | .str s => s
  | v => pyRepr v

/-- Python str.strip() over the character list (ASCII whitespace). -/
def pyStripChars (cs : List Char) : List Char :=
  ((cs.dropWhile Char.isWhitespace).reverse.dropWhile Char.isWhitespace).reverse

/-- Digit-run parser for int(): digits with single underscores strictly
between digits, accumulating the numeric value. -/
def digitsCore : List Char → Nat → Option Nat
  | [], acc => some acc
  | ['_'], _ => none
  | '_' :: d :: rest, acc =>
    if d.isDigit then digitsCore rest (acc * 10 + (d.toNat - 48)) else none
  | c :: rest, acc =>
    if c.isDigit then digitsCore rest (acc * 10 + (c.toNat - 48)) else none

/-- Digit-run parser requiring a leading digit. -/
def digitsStart : List Char → Option Nat
  | [] => none
  | c :: rest => if c.isDigit then digitsCore rest (c.toNat - 48) else none

/-- Python int(s) on a string: strip whitespace, optional sign, base-10
digits (underscore separators allowed); none models a ValueError. -/
def pyIntParse (s : String) : Option Int :=
  match pyStripChars s.data with
  | '+' :: rest => (digitsStart rest).map (fun n => (n : Int))
  | '-' :: rest => (digitsStart rest).map (fun n => -(n : Int))
  | cs => (digitsStart cs).map (fun n => (n : Int))

/-- Name of a target type, as target_type.__name__ in the warning message. -/
def tyName : PyTy → String
  | .tStr => "str"
  | .tInt => "int"

/-- Embedding of target_type(value): str() always succeeds; int() succeeds on
ints and bools, parses strings (ValueError on failure), and raises TypeError
on None, dicts and lists. -/
def pyConvert : PyTy → PyVal → Except PyErr PyVal
  | .tStr, v => .ok (.str (pyStr v))
  | .tInt, .int n => .ok (.int n)
  | .tInt, .bool b => .ok (.int (if b then 1 else 0))
  | .tInt, .str s =>
    match pyIntParse s with
    | some n => .ok (.int n)
    | none => .error .valueError
  | .tInt, _ => .error .typeError

/-- Schema entries map field names to target scalar types. -/
abbrev Schema := List (String × PyTy)

/-- Membership test key in type_mapping, returning the target type. -/
def schemaLookup (tm : Schema) (k : String) : Option PyTy :=
  List.lookup k tm

/-- RUN_MANIFEST_SCHEMA from the source: every field targets str. -/
def RUN_MANIFEST_SCHEMA : Schema :=
  [("arn", .tStr), ("creationTime", .tStr), ("digest", .tStr),
   ("failureReason", .tStr), ("metrics", .tStr), ("name", .tStr),
   ("outputUri", .tStr), ("parameterTemplate", .tStr), ("parameters", .tStr),
   ("resourceDigests", .tStr), ("roleArn", .tStr), ("startTime", .tStr),
   ("startedBy", .tStr), ("status", .tStr), ("statusMessage", .tStr),
   ("stopTime", .tStr), ("storageType", .tStr), ("uuid", .tStr),
   ("workflow", .tStr)]

/-- TASK_MANIFEST_SCHEMA from the source: cpus, gpus, memory target int,
every other field targets str. -/
def TASK_MANIFEST_SCHEMA : Schema :=
  [("arn", .tStr), ("cpus", .tInt), ("creationTime", .tStr),
   ("failureReason", .tStr), ("gpus", .tInt), ("image", .tStr),
   ("instanceType", .tStr), ("memory", .tInt), ("metrics", .tStr),
   ("name", .tStr), ("run", .tStr), ("startTime", .tStr), ("status", .tStr),
   ("statusMessage", .tStr), ("stopTime", .tStr), ("uuid", .tStr),
   ("workflow", .tStr)]

/-- Warning line printed when a conversion raises ValueError. -/
def warnMsg (k : String) (v : PyVal) (ty : PyTy) : String :=
  "Could not convert value " ++ sglQuote ++ pyStr v ++ sglQuote ++ " for key " ++ sglQuote ++ k
    ++ sglQuote ++ " to type " ++ sglQuote ++ tyName ty ++ sglQuote

mutual
/-- Embedding of convert_data_types(data, type_mapping).  Results pair the
transformed value with the list of warning lines printed; an Except.error
models an exception escaping the function (only TypeError can, since the
source catches ValueError only). -/
def convert_data_types : PyVal → Schema → Except PyErr (PyVal × List String)
  | .dict fs, tm =>
    match convertFields fs tm with
    | .ok (fs2, ws) => .ok (.dict fs2, ws)
    | .error e => .error e
  | .list xs, tm =>
    match convertItems xs tm with
    | .ok (xs2, ws) => .ok (.list xs2, ws)
    | .error e => .error e
  | v, _ => .ok (v, [])

/-- Per-field body of the dict branch of convert_data_types: keys in the
schema are converted (ValueError keeps the value and prints a warning,
None is re-assigned as None), container values under unknown keys are
recursed into with the same schema, all other fields pass through. -/
def convertFields : PyFields → Schema → Except PyErr (PyFields × List String)
  | .nil, _ => .ok (.nil, [])
  | .cons k v rest, tm =>
    match schemaLookup tm k with
    | some ty =>
      match v with
      | .null =>
        match convertFields rest tm with
        | .ok (r, ws) => .ok (.cons k .null r, ws)
        | .error e => .error e
      | _ =>
        match pyConvert ty v with
        | .ok v2 =>
          match convertFields rest tm with
          | .ok (r, ws) => .ok (.cons k v2 r, ws)
          | .error e => .error e
        | .error .valueError =>
          match convertFields rest tm with
          | .ok (r, ws) => .ok (.cons k v r, warnMsg k v ty :: ws)
          | .error e => .error e
        | .error e => .error e
    | none =>
      match v with
      | .dict _ =>
        match convert_data_types v tm with
        | .ok (v2, ws) =>
          match convertFields rest tm with
          | .ok (r, ws2) => .ok (.cons k v2 r, ws ++ ws2)
          | .error e => .error e
        | .error e => .error e
      | .list _ =>
        match convert_data_types v tm with
        | .ok (v2, ws) =>
          match convertFields rest tm with
          | .ok (r, ws2) => .ok (.cons k v2 r, ws ++ ws2)
          | .error e => .error e
        | .error e => .error e
      | _ =>
        match convertFields rest tm with
        | .ok (r, ws) => .ok (.cons k v r, ws)
        | .error e => .error e

/-- Per-item body of the list branch of convert_data_types: container items
are recursed into with the same schema, scalars are untouched. -/
def convertItems : PyItems → Schema → Except PyErr (PyItems × List String)
  | .nil, _ => .ok (.nil, [])
  | .cons x rest, tm =>
    match x with
    | .dict _ =>
      match convert_data_types x tm with
      | .ok (x2, ws) =>
        match convertItems rest tm with
        | .ok (r, ws2) => .ok (.cons x2 r, ws ++ ws2)
        | .error e => .error e
      | .error e => .error e
    | .list _ =>
      match convert_data_types x tm with
      | .ok (x2, ws) =>
        match convertItems rest tm with
        | .ok (r, ws2) => .ok (.cons x2 r, ws ++ ws2)
        | .error e => .error e
      | .error e => .error e
    | _ =>
      match convertItems rest tm with
      | .ok (r, ws) => .ok (.cons x r, ws)
      | .error e => .error e
end

/-- Byte-wise test that the first list is a leading segment of the second. -/
def isPrefixCh : List Char → List Char → Bool
  | [], _ => true
  | _ :: _, [] => false
  | c :: cs, d :: ds => c == d && isPrefixCh cs ds

/-- Substring occurrence test over character lists. -/
def containsCh (needle : List Char) : List Char → Bool
  | [] => isPrefixCh needle []
  | d :: rest => isPrefixCh needle (d :: rest) || containsCh needle rest

/-- Embedding of the Python substring test needle in hay. -/
def strContains (hay needle : String) : Bool :=
  containsCh needle.data hay.data

/-- Classification outcome for a manifest record. -/
inductive RecClass : Type where
  | run : RecClass
  | task : RecClass
  | unknown : RecClass
deriving DecidableEq, Repr

/-- Record classification from the handler: the run check comes first, so an
arn holding both substrings classifies as run. -/
def classify (arn : String) : RecClass :=
  if strContains arn ":run/" then .run
  else if strContains arn ":task/" then .task
  else .unknown

/-- Splitting a character list on the slash character, as s.split(sep). -/
def splitOnSlash : List Char → List (List Char)
  | [] => [[]]
  | d :: rest =>
    match splitOnSlash rest with
    | [] => [[]]
    | grp :: gs => if d == '/' then [] :: grp :: gs else (d :: grp) :: gs

/-- Embedding of arn.split(slash) taking the final component, as in the
task-id extraction. -/
def lastSegment (s : String) : String :=
  String.mk ((splitOnSlash s.data).getLastD [])

/-- Destination key for a run manifest, from the handler's S3_KEY_RUN. -/
def s3KeyRun (pfx runId : String) : String :=
  pfx ++ "/runs/" ++ runId ++ ".json"

/-- Destination key for a task manifest, from the handler's S3_KEY_TASK. -/
def s3KeyTask (pfx taskId : String) : String :=
  pfx ++ "/tasks/" ++ taskId ++ ".json"

/-- One page of a describe-log-streams response from the log collaborator. -/
structure StreamPage : Type where
  logStreams : List String
  nextToken : Option String

/-- One page of a get-log-events response; events carry their decoded JSON
message payloads (the opaque-string parse step is modelled as done). -/
structure EventsPage : Type where
  events : List PyVal
  nextForwardToken : Option String

/-- One object-store put: bucket, key, and the JSON document written. -/
structure Write : Type where
  bucket : String
  key : String
  data : PyVal

/-- Structured handler return value. -/
structure HResult : Type where
  statusCode : Nat
  body : String
deriving DecidableEq, Repr

/-- Python truthiness of a pagination token: None and the empty string are
falsy. -/
def tokenFalsy : Option String → Bool
  | none => true
  | some s => s == ""

/-- Python truthiness of the optional limit argument: None and 0 are falsy. -/
def limitTruthy : Option Nat → Bool
  | none => false
  | some n => n != 0

/-- Pagination loop of find_log_streams_by_prefix: accumulate pages until the
token is falsy or (with a truthy limit) enough streams were gathered.  The
response stream is indexed by call number; fuel bounds the iterations. -/
def findStreamsLoop (resp : Nat → StreamPage) (limit : Option Nat) :
    Nat → Nat → List String → Option (List String)
  | 0, _, _ => none
  | fuel + 1, k, acc =>
    let page := resp k
    let acc2 := acc ++ page.logStreams
    if tokenFalsy page.nextToken
        || (limitTruthy limit && decide (limit.getD 0 ≤ acc2.length)) then
      some acc2
    else
      findStreamsLoop resp limit fuel (k + 1) acc2

/-- Embedding of find_log_streams_by_prefix (source name ends differently for
lexical reasons): run the pagination loop, then truncate to the limit when a
truthy limit was given and was exceeded. -/
def findLogStreamsByPfx (resp : Nat → StreamPage) (limit : Option Nat)
    (fuel : Nat) : Option (List String) :=
  match findStreamsLoop resp limit fuel 0 [] with
  | none => none
  | some streams =>
    some (if limitTruthy limit && decide (limit.getD 0 < streams.length) then
            streams.take (limit.getD 0)
          else streams)

/-- Per-stream event pagination loop of get_log_events_by_stream_prefix:
stop when the returned token is falsy or equals the token sent with the
previous request (params.get of nextToken). -/
def fetchEventsLoop (resp : Nat → EventsPage) :
    Nat → Option String → Nat → List PyVal → Option (List PyVal)
  | 0, _, _, _ => none
  | fuel + 1, sent, k, acc =>
    let page := resp k
    let acc2 := acc ++ page.events
    let t := page.nextForwardToken
    if tokenFalsy t || t == sent then some acc2
    else fetchEventsLoop resp fuel t (k + 1) acc2

/-- Event fetch for each located stream in order: stream i uses response
stream evResp i, paginated from the oldest event forward. -/
def fetchStreamsEvents (evResp : Nat → Nat → EventsPage) (fuel : Nat) :
    List String → Nat → Option (List (String × List PyVal))
  | [], _ => some []
  | name :: rest, i =>
    match fetchEventsLoop (evResp i) fuel none 0 [] with
    | none => none
    | some evs =>
      match fetchStreamsEvents evResp fuel rest (i + 1) with
      | none => none
      | some tail => some ((name, evs) :: tail)

/-- Embedding of get_log_events_by_stream_prefix: locate streams (bounded by
maxStreams, which the source passes as a truthy limit), then fetch each
stream's events into separate buckets keyed by stream name. -/
def getLogEventsByStreamPfx (descResp : Nat → StreamPage)
    (evResp : Nat → Nat → EventsPage) (maxStreams : Nat) (fuel : Nat) :
    Option (List (String × List PyVal)) :=
  match findLogStreamsByPfx descResp (some maxStreams) fuel with
  | none => none
  | some streams => fetchStreamsEvents evResp fuel streams 0

/-- Extraction of event[detail][runId]; a KeyError here is the one the
handler catches and turns into a 400 result. -/
def extractRunId (event : PyVal) : Except PyErr PyVal :=
  match pySubscript event "detail" with
  | .ok d => pySubscript d "runId"
  | .error e => .error e

/-- Per-record body of the handler loop: look up the arn, classify by
substring, coerce with the matching schema, and produce the object-store
write; an unknown arn reaches the bare raise (RuntimeError). -/
def processMessage (bucket keyRun pfx : String) (msg : PyVal) :
    Except PyErr Write :=
  match pySubscript msg "arn" with
  | .error e => .error e
  | .ok (.str arn) =>
    match classify arn with
    | .run =>
      match convert_data_types msg RUN_MANIFEST_SCHEMA with
      | .ok (m, _) => .ok ⟨bucket, keyRun, m⟩
      | .error e => .error e
    | .task =>
      let taskId := lastSegment arn
      match convert_data_types msg TASK_MANIFEST_SCHEMA with
      | .ok (m, _) => .ok ⟨bucket, s3KeyTask pfx taskId, m⟩
      | .error e => .error e
    | .unknown => .error .runtimeError
  | .ok _ => .error .typeError

/-- Handler loop over all aggregated messages, in order: writes accumulate
until the first uncaught error, which aborts the remainder (earlier writes
have already happened). -/
def processEvents (bucket keyRun pfx : String) :
    List PyVal → List Write × Option PyErr
  | [] => ([], none)
  | m :: rest =>
    match processMessage bucket keyRun pfx m with
    | .error e => ([], some e)
    | .ok w =>
      match processEvents bucket keyRun pfx rest with
      | (ws, e) => (w :: ws, e)

/-- Embedding of lambda_handler.  Configuration (bucket, key prefix) is
assumed present, as the claims require; the log collaborator is given by one
describe-response stream per call site and per-stream event-response
streams.  The result pairs the list of object-store writes performed with
either a structured return value or the uncaught exception; none means a
pagination loop exceeded its fuel. -/
def lambda_handler (bucket pfx : String) (descResp1 descResp2 : Nat → StreamPage)
    (evResp : Nat → Nat → EventsPage) (fuel : Nat) (event : PyVal) :
    Option (List Write × Except PyErr HResult) :=
  match extractRunId event with
  | .error .keyError => some ([], .ok ⟨400, "\"Missing required event detail\""⟩)
  | .error e => some ([], .error e)
  | .ok runIdVal =>
    let runId := pyStr runIdVal
    match findLogStreamsByPfx descResp1 (some 10) fuel with
    | none => none
    | some [] => some ([], .error .indexError)
    | some (_ :: _) =>
      match getLogEventsByStreamPfx descResp2 evResp 1 fuel with
      | none => none
      | some allEvents =>
        let keyRun := s3KeyRun pfx runId
        let msgs := (allEvents.map Prod.snd).flatten
        match processEvents bucket keyRun pfx msgs with
        | (ws, some e) => some (ws, .error e)
        | (ws, none) => some (ws, .ok ⟨200, "Manifest ETL complete"⟩)

/-- Content visible at a key after a sequence of full-overwrite puts: the
last write to that key wins. -/
def lastWriteAt (ws : List Write) (key : String) : Option PyVal :=
  ((ws.filter (fun w => w.key == key)).getLast?).map Write.data

/-- Test whether a handler outcome is a structured (returned) result. -/
def isSuccess : Option (List Write × Except PyErr HResult) → Bool
  | some (_, .ok _) => true
  | _ => false

/-- Normalization of a record by the run schema; total because that schema
only targets str (see convert_run_total). -/
def runNorm (v : PyVal) : PyVal :=
  match convert_data_types v RUN_MANIFEST_SCHEMA with
  | .ok (m, _) => m
  | .error _ => v

/-- Predicate on schemas whose every target type is str (the run schema). -/
def allStrSchema (tm : Schema) : Prop :=
  ∀ k ty, schemaLookup tm k = some ty → ty = PyTy.tStr

/-- Lemma: target-type application only raises ValueError or TypeError. -/
theorem pyConvert_err_cases (ty : PyTy) (v : PyVal) (e : PyErr)
    (h : pyConvert ty v = .error e) : e = .valueError ∨ e = .typeError := by
  cases ty <;> cases v <;> simp [pyConvert] at h <;> try exact Or.inr h.symm
  · cases hp : pyIntParse _ with
    | some n => rw [hp] at h; simp at h
    | none => rw [hp] at h; simp at h; exact Or.inl h.symm

mutual
/-- Lemma: coercion with an all-str schema succeeds with no warnings. -/
theorem convTotalVal (tm : Schema) (h : allStrSchema tm) :
    (v : PyVal) → ∃ m, convert_data_types v tm = .ok (m, [])
  | .null => ⟨.null, rfl⟩
  | .bool b => ⟨.bool b, rfl⟩
  | .int n => ⟨.int n, rfl⟩
  | .str s => ⟨.str s, rfl⟩
  | .dict fs => by
    obtain ⟨fs2, hfs⟩ := convTotalFields tm h fs
    exact ⟨.dict fs2, by simp [convert_data_types, hfs]⟩
  | .list xs => by
    obtain ⟨xs2, hxs⟩ := convTotalItems tm h xs
    exact ⟨.list xs2, by simp [convert_data_types, hxs]⟩

/-- Field part of convTotalVal. -/
theorem convTotalFields (tm : Schema) (h : allStrSchema tm) :
    (fs : PyFields) → ∃ r, convertFields fs tm = .ok (r, [])
  | .nil => ⟨.nil, rfl⟩
  | .cons k v rest => by
    obtain ⟨r, hr⟩ := convTotalFields tm h rest
    obtain ⟨m, hm⟩ := convTotalVal tm h v
    cases hsl : schemaLookup tm k with
    | some ty =>
      have hty : ty = PyTy.tStr := h k ty hsl
      subst hty
      cases v <;> simp [convertFields, hsl, pyConvert, hr]
    | none =>
      cases v <;> simp [convertFields, hsl, hr, hm]

/-- Item part of convTotalVal. -/
theorem convTotalItems (tm : Schema) (h : allStrSchema tm) :
    (xs : PyItems) → ∃ r, convertItems xs tm = .ok (r, [])
  | .nil => ⟨.nil, rfl⟩
  | .cons x rest => by
    obtain ⟨r, hr⟩ := convTotalItems tm h rest
    obtain ⟨m, hm⟩ := convTotalVal tm h x
    cases x <;> simp [convertItems, hr, hm]
end

/-- Lemma: the run schema is all-str. -/
theorem runSchema_allStr : allStrSchema RUN_MANIFEST_SCHEMA := by
  intro k ty h
  simp [schemaLookup, RUN_MANIFEST_SCHEMA, List.lookup] at h
  repeat' first
  | (rcases h with h | h)
  | (revert h; split <;> intro h <;> simp_all)


/-- Head-step of the dict branch of convert_data_types, factored out to state
structural lemmas: the new value for field (k, v) together with the warnings
it prints, or the escaping exception. -/
def fieldStep (tm : Schema) (k : String) (v : PyVal) :
    Except PyErr (PyVal × List String) :=
  match schemaLookup tm k with
  | some ty =>
    match v with
    | .null => .ok (.null, [])
    | _ =>
      match pyConvert ty v with
      | .ok v2 => .ok (v2, [])
      | .error .valueError => .ok (v, [warnMsg k v ty])
      | .error e => .error e
  | none =>
    if isContainer v then convert_data_types v tm else .ok (v, [])

/-- Lemma: convertFields factors through fieldStep on the head field. -/
theorem convertFields_cons (tm : Schema) (k : String) (v : PyVal)
    (rest : PyFields) :
    convertFields (.cons k v rest) tm =
      match fieldStep tm k v with
      | .error e => .error e
      | .ok (v2, ws) =>
        match convertFields rest tm with
        | .error e => .error e
        | .ok (r, ws2) => .ok (.cons k v2 r, ws ++ ws2) := by
  cases hsl : schemaLookup tm k <;> cases v <;>
    simp only [convertFields, fieldStep, hsl, isContainer] <;>
    (repeat' split) <;> simp_all <;>
    (obtain ⟨rfl, rfl⟩ := ‹_ ∧ _›; simp)

/-- Lemma: convertItems factors through the per-item step. -/
theorem convertItems_cons (tm : Schema) (x : PyVal) (rest : PyItems) :
    convertItems (.cons x rest) tm =
      match (if isContainer x then convert_data_types x tm else .ok (x, [])) with
      | .error e => .error e
      | .ok (x2, ws) =>
        match convertItems rest tm with
        | .error e => .error e
        | .ok (r, ws2) => .ok (.cons x2 r, ws ++ ws2) := by
  cases x <;>
    simp only [convertItems, isContainer] <;>
    (repeat' split) <;> simp_all

/-- Lemma: the head step only raises what value coercion of the underlying
value would raise, which under the recursion hypothesis is a TypeError. -/
theorem fieldStepErrAux (tm : Schema) (k : String) (v : PyVal) (e : PyErr)
    (hrec : ∀ e2, convert_data_types v tm = .error e2 → e2 = PyErr.typeError)
    (h : fieldStep tm k v = .error e) : e = PyErr.typeError := by
  cases hsl : schemaLookup tm k with
  | some ty =>
    simp only [fieldStep, hsl] at h
    cases v <;> (try simp at h) <;>
      (repeat' split at h) <;> simp_all <;>
      (rcases pyConvert_err_cases _ _ _ ‹pyConvert _ _ = Except.error _› with h2 | h2 <;>
        simp_all)
  | none =>
    simp only [fieldStep, hsl] at h
    by_cases hc : isContainer v
    · rw [if_pos hc] at h
      exact hrec e h
    · rw [if_neg hc] at h
      simp at h

mutual
/-- Lemma: the only exception that can escape the coercion engine is a
TypeError; every ValueError is caught locally. -/
theorem convErrVal (tm : Schema) :
    (v : PyVal) → (e : PyErr) → convert_data_types v tm = .error e →
      e = PyErr.typeError
  | .null, e => by simp [convert_data_types]
  | .bool b, e => by simp [convert_data_types]
  | .int n, e => by simp [convert_data_types]
  | .str s, e => by simp [convert_data_types]
  | .dict fs, e => by
    intro h
    rw [convert_data_types] at h
    cases hfs : convertFields fs tm with
    | ok p => rw [hfs] at h; simp at h
    | error e2 =>
      rw [hfs] at h
      simp at h
      exact h ▸ convErrFields tm fs e2 hfs
  | .list xs, e => by
    intro h
    rw [convert_data_types] at h
    cases hxs : convertItems xs tm with
    | ok p => rw [hxs] at h; simp at h
    | error e2 =>
      rw [hxs] at h
      simp at h
      exact h ▸ convErrItems tm xs e2 hxs

/-- Field part of convErrVal. -/
theorem convErrFields (tm : Schema) :
    (fs : PyFields) → (e : PyErr) → convertFields fs tm = .error e →
      e = PyErr.typeError
  | .nil, e => by simp [convertFields]
  | .cons k v rest, e => by
    intro h
    rw [convertFields_cons] at h
    cases hstep : fieldStep tm k v with
    | error e2 =>
      rw [hstep] at h
      simp at h
      exact h ▸ fieldStepErrAux tm k v e2 (fun e3 h3 => convErrVal tm v e3 h3) hstep
    | ok p =>
      obtain ⟨v2, ws⟩ := p
      rw [hstep] at h
      cases hrest : convertFields rest tm with
      | ok q => obtain ⟨r, ws2⟩ := q; rw [hrest] at h; simp at h
      | error e2 =>
        rw [hrest] at h
        simp at h
        exact h ▸ convErrFields tm rest e2 hrest

/-- Item part of convErrVal. -/
theorem convErrItems (tm : Schema) :
    (xs : PyItems) → (e : PyErr) → convertItems xs tm = .error e →
      e = PyErr.typeError
  | .nil, e => by simp [convertItems]
  | .cons x rest, e => by
    intro h
    rw [convertItems_cons] at h
    by_cases hc : isContainer x
    · rw [if_pos hc] at h
      cases hx : convert_data_types x tm with
      | error e2 =>
        rw [hx] at h
        simp at h
        exact h ▸ convErrVal tm x e2 hx
      | ok p =>
        obtain ⟨x2, ws⟩ := p
        rw [hx] at h
        cases hrest : convertItems rest tm with
        | ok q => obtain ⟨r, ws2⟩ := q; rw [hrest] at h; simp at h
        | error e2 =>
          rw [hrest] at h
          simp at h
          exact h ▸ convErrItems tm rest e2 hrest
    · rw [if_neg hc] at h
      simp at h
      cases hrest : convertItems rest tm with
      | ok q => obtain ⟨r, ws2⟩ := q; rw [hrest] at h; simp at h
      | error e2 =>
        rw [hrest] at h
        simp at h
        exact h ▸ convErrItems tm rest e2 hrest
end

/-- Lemma: a field whose key is outside the schema and whose value is not a
container steps to itself with no warning. -/
theorem fieldStep_passthrough (tm : Schema) (k : String) (v : PyVal)
    (h1 : schemaLookup tm k = none) (h2 : isContainer v = false) :
    fieldStep tm k v = .ok (v, []) := by
  simp [fieldStep, h1, h2]

/-- Lemma: a successful convertFields keeps every non-schema, non-container
field unchanged at its position. -/
theorem convertFields_frame (tm : Schema) :
    (fs : PyFields) → (r : PyFields) → (ws : List String) → (i : Nat) →
    (k : String) → (v : PyVal) →
    convertFields fs tm = .ok (r, ws) → fieldAt fs i = some (k, v) →
    schemaLookup tm k = none → isContainer v = false →
    fieldAt r i = some (k, v)
  | .nil, r, ws, i, k, v => by
    intro _ hat _ _
    simp [fieldAt] at hat
  | .cons k0 v0 rest, r, ws, i, k, v => by
    intro h hat hsl hcont
    rw [convertFields_cons] at h
    cases hstep : fieldStep tm k0 v0 with
    | error e => rw [hstep] at h; simp at h
    | ok p =>
      obtain ⟨v2, ws1⟩ := p
      rw [hstep] at h
      cases hrest : convertFields rest tm with
      | error e => rw [hrest] at h; simp at h
      | ok q =>
        obtain ⟨r2, ws2⟩ := q
        rw [hrest] at h
        simp at h
        obtain ⟨rfl, rfl⟩ := h
        cases i with
        | zero =>
          simp [fieldAt] at hat
          obtain ⟨rfl, rfl⟩ := hat
          rw [fieldStep_passthrough tm _ _ hsl hcont] at hstep
          simp at hstep
          obtain ⟨rfl, rfl⟩ := hstep
          simp [fieldAt]
        | succ n =>
          simp [fieldAt] at hat ⊢
          exact convertFields_frame tm rest r2 ws2 n k v hrest hat hsl hcont

/-- Lemma: a successful convertFields preserves the key list exactly. -/
theorem convertFields_keys (tm : Schema) :
    (fs : PyFields) → (r : PyFields) → (ws : List String) →
    convertFields fs tm = .ok (r, ws) → fieldsKeys r = fieldsKeys fs
  | .nil, r, ws => by
    intro h
    simp [convertFields] at h
    obtain ⟨rfl, rfl⟩ := h
    rfl
  | .cons k0 v0 rest, r, ws => by
    intro h
    rw [convertFields_cons] at h
    cases hstep : fieldStep tm k0 v0 with
    | error e => rw [hstep] at h; simp at h
    | ok p =>
      obtain ⟨v2, ws1⟩ := p
      rw [hstep] at h
      cases hrest : convertFields rest tm with
      | error e => rw [hrest] at h; simp at h
      | ok q =>
        obtain ⟨r2, ws2⟩ := q
        rw [hrest] at h
        simp at h
        obtain ⟨rfl, rfl⟩ := h
        simp [fieldsKeys]
        exact convertFields_keys tm rest r2 ws2 hrest

/-- Lemma: a successful convertItems preserves the element count exactly. -/
theorem convertItems_len (tm : Schema) :
    (xs : PyItems) → (r : PyItems) → (ws : List String) →
    convertItems xs tm = .ok (r, ws) → itemsLen r = itemsLen xs
  | .nil, r, ws => by
    intro h
    simp [convertItems] at h
    obtain ⟨rfl, rfl⟩ := h
    rfl
  | .cons x rest, r, ws => by
    intro h
    rw [convertItems_cons] at h
    cases hstep : (if isContainer x then convert_data_types x tm else .ok (x, [])) with
    | error e => rw [hstep] at h; simp at h
    | ok p =>
      obtain ⟨x2, ws1⟩ := p
      rw [hstep] at h
      cases hrest : convertItems rest tm with
      | error e => rw [hrest] at h; simp at h
      | ok q =>
        obtain ⟨r2, ws2⟩ := q
        rw [hrest] at h
        simp at h
        obtain ⟨rfl, rfl⟩ := h
        simp [itemsLen]
        exact convertItems_len tm rest r2 ws2 hrest

/-- Stop condition of the event-pagination loop at call index k: the token
returned by call k is falsy, or call k repeats the token of call k - 1
(which is the token the loop sent with request k). -/
def stopAt (resp : Nat → EventsPage) (k : Nat) : Prop :=
  tokenFalsy (resp k).nextForwardToken = true ∨
    (0 < k ∧ (resp k).nextForwardToken = (resp (k - 1)).nextForwardToken)

/-- Lemma: the event loop halts by call kk whenever the stop condition holds
there, from any reachable intermediate state. -/
theorem fetchLoop_halts_aux (resp : Nat → EventsPage) (kk : Nat)
    (hstop : stopAt resp kk) :
    ∀ (fuel j : Nat) (sent : Option String) (acc : List PyVal),
    j ≤ kk → kk < j + fuel →
    (j = 0 → sent = none) → (0 < j → sent = (resp (j - 1)).nextForwardToken) →
    (fetchEventsLoop resp fuel sent j acc).isSome = true := by
  intro fuel
  induction fuel with
  | zero => intro j sent acc h1 h2 _ _; omega
  | succ n ih =>
    intro j sent acc h1 h2 hz hp
    by_cases hbrk :
        (tokenFalsy (resp j).nextForwardToken
          || ((resp j).nextForwardToken == sent)) = true
    · simp [fetchEventsLoop, hbrk]
    · have hne : j ≠ kk := by
        intro hjk
        subst hjk
        simp at hbrk
        rcases hstop with hf | ⟨hpos, heq⟩
        · exact absurd hf (by simp [hbrk.1])
        · exact absurd (hp hpos ▸ heq) (by simpa using hbrk.2)
      simp only [fetchEventsLoop, Bool.not_eq_true] at hbrk ⊢
      rw [hbrk]
      simp only [Bool.false_eq_true, if_false]
      exact ih (j + 1) (resp j).nextForwardToken (acc ++ (resp j).events)
        (by omega) (by omega) (by omega) (fun _ => by simp)

/-- Concatenation of the stream pages the collaborator yields on calls
j, j+1, ..., j+n-1. -/
def pagesFrom (resp : Nat → StreamPage) : Nat → Nat → List String
  | _, 0 => []
  | j, n + 1 => (resp j).logStreams ++ pagesFrom resp (j + 1) n

/-- Lemma: with no limit, the stream loop returns exactly the accumulated
pages up to and including the first page whose token is falsy. -/
theorem findLoop_exhaust (resp : Nat → StreamPage) (kk : Nat)
    (hfirst : ∀ j, j < kk → tokenFalsy (resp j).nextToken = false)
    (hlast : tokenFalsy (resp kk).nextToken = true) :
    ∀ (fuel j : Nat) (acc : List String), j ≤ kk → kk < j + fuel →
    findStreamsLoop resp none fuel j acc =
      some (acc ++ pagesFrom resp j (kk + 1 - j)) := by
  intro fuel
  induction fuel with
  | zero => intro j acc h1 h2; omega
  | succ n ih =>
    intro j acc h1 h2
    by_cases hjk : j = kk
    · subst hjk
      have hrest : j + 1 - j = 1 := by omega
      simp [findStreamsLoop, hlast, limitTruthy, hrest, pagesFrom]
    · have hlt : j < kk := by omega
      have hf := hfirst j hlt
      have hstep : kk + 1 - j = (kk + 1 - (j + 1)) + 1 := by omega
      simp only [findStreamsLoop, hf, limitTruthy, Bool.false_and,
        Bool.or_false, Bool.false_eq_true, if_false]
      rw [ih (j + 1) (acc ++ (resp j).logStreams) (by omega) (by omega)]
      rw [hstep]
      simp [pagesFrom, List.append_assoc]

/-- Lemma: with a truthy (nonzero) limit, any stream list the locator
returns has been truncated to at most the limit. -/
theorem findStreams_limit_le (resp : Nat → StreamPage) (n fuel : Nat)
    (s : List String) (hn : 0 < n)
    (h : findLogStreamsByPfx resp (some n) fuel = some s) : s.length ≤ n := by
  unfold findLogStreamsByPfx at h
  cases hloop : findStreamsLoop resp (some n) fuel 0 [] with
  | none => rw [hloop] at h; simp at h
  | some streams =>
    rw [hloop] at h
    simp only [Option.some.injEq] at h
    subst h
    by_cases hc :
        (limitTruthy (some n) && decide ((some n).getD 0 < streams.length)) = true
    · rw [if_pos hc]
      simp
    · rw [if_neg hc]
      have hlt : limitTruthy (some n) = true := by
        simp [limitTruthy]
        omega
      simp [hlt] at hc
      simpa using hc

/-- Lemma: convert_data_types with the run schema computes runNorm with no
warnings and no exception. -/
theorem convert_run_eq (v : PyVal) :
    convert_data_types v RUN_MANIFEST_SCHEMA = .ok (runNorm v, []) := by
  obtain ⟨m, hm⟩ := convTotalVal RUN_MANIFEST_SCHEMA runSchema_allStr v
  rw [hm, runNorm, hm]

/-- Lemma: a record whose arn holds the run substring is written to the
precomputed run key with its run-schema normalization. -/
theorem processMessage_run (b keyRun pfx : String) (m : PyVal) (a : String)
    (h1 : pySubscript m "arn" = .ok (.str a))
    (h2 : strContains a ":run/" = true) :
    processMessage b keyRun pfx m = .ok ⟨b, keyRun, runNorm m⟩ := by
  simp [processMessage, h1, classify, h2, convert_run_eq m]

/-- Lemma: on a list of run-classified records the handler loop writes each
record's run-schema normalization, all to the same precomputed key, with no
failure. -/
theorem processEvents_run_all (b keyRun pfx : String) :
    ∀ msgs : List PyVal,
    (∀ m ∈ msgs, ∃ a, pySubscript m "arn" = .ok (.str a) ∧
      strContains a ":run/" = true) →
    processEvents b keyRun pfx msgs =
      (msgs.map (fun m => ⟨b, keyRun, runNorm m⟩), none)
  | [] => by intro _; rfl
  | m :: rest => by
    intro h
    obtain ⟨a, ha1, ha2⟩ := h m (List.mem_cons_self m rest)
    have hrest := processEvents_run_all b keyRun pfx rest
      (fun x hx => h x (List.mem_cons_of_mem m hx))
    simp [processEvents, processMessage_run b keyRun pfx m a ha1 ha2, hrest]

/-- Lemma: writes that all target the same key resolve, under last-writer-
wins, to the image of the last source record. -/
theorem lastWriteAt_map_const (b keyRun : String) (f : PyVal → PyVal)
    (msgs : List PyVal) :
    lastWriteAt (msgs.map (fun m => ⟨b, keyRun, f m⟩)) keyRun =
      (msgs.getLast?).map f := by
  unfold lastWriteAt
  rw [List.filter_eq_self.mpr]
  · rw [List.getLast?_map]
    rw [Option.map_map]
    rfl
  · intro w hw
    simp at hw
    obtain ⟨m, _, rfl⟩ := hw
    simp

/-- Record used to refute C1: a field outside the schema whose value is a
nested dict that holds a schema key name. -/
def exC1 : PyVal :=
  .dict (.cons "foo" (.dict (.cons "cpus" (.str "3") .nil)) .nil)

/-- Claim C1 is false as stated: the field foo is not in the task schema,
yet coercion recurses into its dict value with the same schema and converts
the nested cpus entry from the string 3 to the integer 3, so the field's
value changes.  The conjuncts exhibit the computed output, the absence of
foo from the schema, and the disequality of old and new values. -/
theorem C1_counterexample :
    convert_data_types exC1 TASK_MANIFEST_SCHEMA
      = .ok (.dict (.cons "foo" (.dict (.cons "cpus" (.int 3) .nil)) .nil), [])
    ∧ schemaLookup TASK_MANIFEST_SCHEMA "foo" = none
    ∧ PyVal.dict (.cons "cpus" (.int 3) .nil)
        ≠ PyVal.dict (.cons "cpus" (.str "3") .nil) := by
  refine ⟨rfl, rfl, ?_⟩
  simp

/-- Claim C1 (corrected): coercion leaves every field whose key is not in
the schema unchanged in type and value, provided the field's value is not a
nested mapping or sequence; container values under unknown keys are instead
recursed into with the same schema (the design quirk of section 4.2 of the
specification). -/
theorem C1_theorem (tm : Schema) (fs r : PyFields) (ws : List String)
    (i : Nat) (k : String) (v : PyVal)
    (hconv : convert_data_types (.dict fs) tm = .ok (.dict r, ws))
    (hat : fieldAt fs i = some (k, v))
    (hsl : schemaLookup tm k = none)
    (hcont : isContainer v = false) :
    fieldAt r i = some (k, v) := by
  rw [convert_data_types] at hconv
  cases hfs : convertFields fs tm with
  | error e => rw [hfs] at hconv; simp at hconv
  | ok p =>
    obtain ⟨fs2, ws2⟩ := p
    rw [hfs] at hconv
    simp at hconv
    obtain ⟨h1, h2⟩ := hconv
    exact convertFields_frame tm fs r ws i k v (h1 ▸ h2 ▸ hfs) hat hsl hcont

/-- Witness for C1_theorem at a concrete unknown scalar field. -/
theorem C1_witness :
    fieldAt (PyFields.cons "zzz" (.str "v") .nil) 0 = some ("zzz", .str "v") :=
  C1_theorem TASK_MANIFEST_SCHEMA (.cons "zzz" (.str "v") .nil)
    (.cons "zzz" (.str "v") .nil) [] 0 "zzz" (.str "v") rfl rfl rfl rfl

/-- Claim C2 (confirmed): classification is by substring, with the run check
first: an identifier holding the run segment classifies Run (also when it
holds the task segment as well, which fully determines the both-substrings
case); one holding the task segment but not the run segment classifies
Task; any other identifier classifies Unknown. -/
theorem C2_theorem (s : String) :
    (strContains s ":run/" = true → classify s = .run)
    ∧ (strContains s ":run/" = false → strContains s ":task/" = true →
        classify s = .task)
    ∧ (strContains s ":run/" = false → strContains s ":task/" = false →
        classify s = .unknown)
    ∧ (strContains s ":run/" = true → strContains s ":task/" = true →
        classify s = .run) := by
  exact ⟨fun h1 => by simp [classify, h1],
    fun h1 h2 => by simp [classify, h1, h2],
    fun h1 h2 => by simp [classify, h1, h2],
    fun h1 _ => by simp [classify, h1]⟩

/-- Witness for C2_theorem at concrete identifiers of all four shapes. -/
theorem C2_witness :
    classify "arn:aws:omics:us-east-1:123:run/r1" = .run
    ∧ classify "arn:aws:omics:us-east-1:123:task/t1" = .task
    ∧ classify "arn:aws:omics:us-east-1:123:other/x" = .unknown
    ∧ classify "a:run/r:task/t" = .run :=
  ⟨(C2_theorem _).1 rfl, (C2_theorem _).2.1 rfl rfl,
   (C2_theorem _).2.2.1 rfl rfl, (C2_theorem _).2.2.2 rfl rfl⟩

/-- Claim C3 is false as stated: coercion is not exception-free for every
runtime type.  A list value under the integer-target field cpus makes
int() raise TypeError, which the source's except clause (ValueError only)
does not catch, so the coercion call raises. -/
theorem C3_counterexample :
    convert_data_types (.dict (.cons "cpus" (.list .nil) .nil))
      TASK_MANIFEST_SCHEMA = .error .typeError := rfl

/-- Claim C3 (corrected): a schema field whose non-null value fails to
convert with a ValueError is left as-is and a warning line is emitted, and
no ValueError ever escapes the engine (the only escaping exception is a
TypeError, raised when int() is applied to a mapping or sequence). -/
theorem C3_theorem :
    (∀ (tm : Schema) (v : PyVal) (e : PyErr),
      convert_data_types v tm = .error e → e = PyErr.typeError)
    ∧ (∀ (tm : Schema) (k : String) (ty : PyTy) (v : PyVal) (rest : PyFields)
        (r : PyFields) (ws : List String),
        schemaLookup tm k = some ty → v ≠ .null →
        pyConvert ty v = .error .valueError →
        convertFields rest tm = .ok (r, ws) →
        convertFields (.cons k v rest) tm
          = .ok (.cons k v r, warnMsg k v ty :: ws)) := by
  refine ⟨fun tm v e h => convErrVal tm v e h, ?_⟩
  intro tm k ty v rest r ws hsl hv hpc hrest
  have hstep : fieldStep tm k v = .ok (v, [warnMsg k v ty]) := by
    cases v <;> simp_all [fieldStep, hsl, hpc]
  rw [convertFields_cons, hstep, hrest]
  simp

/-- Witness for C3_theorem: the local-recovery branch at a concrete
non-numeric string under the integer-target field cpus. -/
theorem C3_witness :
    convertFields (.cons "cpus" (.str "x") .nil) TASK_MANIFEST_SCHEMA
      = .ok (.cons "cpus" (.str "x") .nil,
          [warnMsg "cpus" (.str "x") .tInt]) :=
  C3_theorem.2 TASK_MANIFEST_SCHEMA "cpus" .tInt (.str "x") .nil .nil []
    rfl (by simp) rfl rfl

/-- Claim C4 (confirmed): the per-stream event-pagination loop halts within
k + 1 requests whenever the collaborator's page at call k carries no (or an
empty) continuation token, or repeats the token sent with the previous
request; in particular a collaborator that returns one stable token forever
satisfies the stop condition at its second call, so the loop cannot spin. -/
theorem C4_theorem (resp : Nat → EventsPage) (k : Nat) (h1 : stopAt resp k)
    (fuel : Nat) (h2 : k < fuel) :
    (fetchEventsLoop resp fuel none 0 []).isSome = true :=
  fetchLoop_halts_aux resp k h1 fuel 0 none [] (Nat.zero_le k) (by omega)
    (fun _ => rfl) (fun h => absurd h (by omega))

/-- Witness for C4_theorem: a stubbed collaborator returning the same token
forever stops after exactly one repeated-token observation (two calls). -/
theorem C4_witness :
    (fetchEventsLoop (fun _ => ⟨[], some "T"⟩) 2 none 0 []).isSome = true :=
  C4_theorem (fun _ => ⟨[], some "T"⟩) 1 (Or.inr ⟨Nat.one_pos, rfl⟩) 2
    (by omega)

/-- Claim C5 (confirmed): whenever the per-record step produces a write, the
destination key is a pure function of the configured prefix, the static
namespace (runs or tasks chosen by the classification), and the identifier
(the inbound run id for runs, the arn's final path segment for tasks) —
with no timestamp or random component, so the same (identifier, record)
pair always yields the same key. -/
theorem C5_theorem (b pfx rid : String) (msg : PyVal) (a : String) (w : Write)
    (h1 : pySubscript msg "arn" = .ok (.str a))
    (h2 : processMessage b (s3KeyRun pfx rid) pfx msg = .ok w) :
    classify a ≠ .unknown
    ∧ w.key = (match classify a with
               | .run => s3KeyRun pfx rid
               | .task => s3KeyTask pfx (lastSegment a)
               | .unknown => w.key) := by
  cases hc : classify a with
  | run =>
    rw [processMessage, h1] at h2
    simp only [hc] at h2
    rw [convert_run_eq msg] at h2
    simp at h2
    refine ⟨by simp, ?_⟩
    simp [← h2]
  | task =>
    rw [processMessage, h1] at h2
    simp only [hc] at h2
    cases hcv : convert_data_types msg TASK_MANIFEST_SCHEMA with
    | error e => rw [hcv] at h2; simp at h2
    | ok p =>
      obtain ⟨m, ws⟩ := p
      rw [hcv] at h2
      simp at h2
      refine ⟨by simp, ?_⟩
      simp [← h2]
  | unknown =>
    rw [processMessage, h1] at h2
    simp only [hc] at h2
    simp at h2

/-- Record used in the C5 witness: a run manifest whose arn is in the run
namespace. -/
def msgC5 : PyVal :=
  .dict (.cons "arn" (.str "arn:aws:omics:us-east-1:1:run/r1") .nil)

/-- Witness for C5_theorem at a concrete run record: the key is the run key
built from the configured prefix and the inbound run id. -/
theorem C5_witness :
    classify "arn:aws:omics:us-east-1:1:run/r1" ≠ .unknown
    ∧ (Write.mk "b" "p/runs/r1.json" msgC5).key
        = (match classify "arn:aws:omics:us-east-1:1:run/r1" with
           | .run => s3KeyRun "p" "r1"
           | .task => s3KeyTask "p" (lastSegment "arn:aws:omics:us-east-1:1:run/r1")
           | .unknown => (Write.mk "b" "p/runs/r1.json" msgC5).key) :=
  C5_theorem "b" "p" "r1" msgC5 "arn:aws:omics:us-east-1:1:run/r1"
    ⟨"b", "p/runs/r1.json", msgC5⟩ rfl rfl

/-- Claim C6 (confirmed): an inbound event whose detail payload lacks runId
makes the handler return the structured 400 result (the caught KeyError
path), and the handler performs no object-store writes. -/
theorem C6_theorem (bucket pfx : String) (d1 d2 : Nat → StreamPage)
    (ev : Nat → Nat → EventsPage) (fuel : Nat) (event d : PyVal)
    (h1 : pySubscript event "detail" = .ok d)
    (h2 : pySubscript d "runId" = .error .keyError) :
    lambda_handler bucket pfx d1 d2 ev fuel event
      = some ([], .ok ⟨400, "\"Missing required event detail\""⟩) := by
  simp [lambda_handler, extractRunId, h1, h2]

/-- Event used in the C6 witness: a detail payload with no runId field. -/
def evC6 : PyVal := .dict (.cons "detail" (.dict .nil) .nil)

/-- Witness for C6_theorem at a concrete runId-free event and stub
collaborators. -/
theorem C6_witness :
    lambda_handler "b" "p" (fun _ => ⟨[], none⟩) (fun _ => ⟨[], none⟩)
      (fun _ _ => ⟨[], none⟩) 1 evC6
      = some ([], .ok ⟨400, "\"Missing required event detail\""⟩) :=
  C6_theorem "b" "p" (fun _ => ⟨[], none⟩) (fun _ => ⟨[], none⟩)
    (fun _ _ => ⟨[], none⟩) 1 evC6 (.dict .nil) rfl rfl

/-- Event used in the C7 setups: a well-formed detail payload with
runId r-1. -/
def evC7 : PyVal :=
  .dict (.cons "detail" (.dict (.cons "runId" (.str "r-1") .nil)) .nil)

/-- Claim C7 is false as stated: with a valid runId and an empty stream
lookup, the handler does not return a structured statusCode-500 result (no
500 path exists in the code); it raises an uncaught IndexError at
streams[0].  The conjuncts pin the whole outcome at a concrete input — an
exception with zero writes — and record that it is not a structured
success of any kind. -/
theorem C7_counterexample :
    lambda_handler "b" "p" (fun _ => ⟨[], none⟩) (fun _ => ⟨[], none⟩)
      (fun _ _ => ⟨[], none⟩) 3 evC7 = some ([], .error .indexError)
    ∧ isSuccess (lambda_handler "b" "p" (fun _ => ⟨[], none⟩)
        (fun _ => ⟨[], none⟩) (fun _ _ => ⟨[], none⟩) 3 evC7) = false :=
  ⟨rfl, rfl⟩

/-- Claim C7 (corrected): with a valid runId and a stream lookup returning
the empty sequence, the invocation fails with no object written and no
success result — but the failure surfaces as an uncaught IndexError from
indexing the empty stream list, not as a structured statusCode-500 return
value. -/
theorem C7_theorem (bucket pfx : String) (d1 d2 : Nat → StreamPage)
    (ev : Nat → Nat → EventsPage) (fuel : Nat) (event rid : PyVal)
    (h1 : extractRunId event = .ok rid)
    (h2 : findLogStreamsByPfx d1 (some 10) fuel = some []) :
    lambda_handler bucket pfx d1 d2 ev fuel event
      = some ([], .error .indexError) := by
  simp [lambda_handler, h1, h2]

/-- Witness for C7_theorem at a concrete event and an empty-page stub. -/
theorem C7_witness :
    lambda_handler "b2" "p2" (fun _ => ⟨[], none⟩) (fun _ => ⟨[], none⟩)
      (fun _ _ => ⟨[], none⟩) 4 evC7 = some ([], .error .indexError) :=
  C7_theorem "b2" "p2" (fun _ => ⟨[], none⟩) (fun _ => ⟨[], none⟩)
    (fun _ _ => ⟨[], none⟩) 4 evC7 (.str "r-1") rfl rfl

/-- Claim C8 is false as stated: a limit argument of 0 is given yet the
locator, which tests the limit for Python truthiness, ignores it and
returns more than 0 streams. -/
theorem C8_counterexample :
    findLogStreamsByPfx (fun _ => ⟨["a", "b"], none⟩) (some 0) 1
      = some ["a", "b"]
    ∧ ¬ ((["a", "b"] : List String).length ≤ 0) := by
  exact ⟨rfl, by simp⟩

/-- Claim C8 (corrected): with a nonzero (truthy) limit any returned stream
list holds at most limit streams; with no limit the locator returns exactly
the concatenation of every page the collaborator yields, up to and
including the first page whose continuation token is absent or empty (a
limit of 0 is treated as absent because of Python truthiness). -/
theorem C8_theorem :
    (∀ (resp : Nat → StreamPage) (n fuel : Nat) (s : List String),
      0 < n → findLogStreamsByPfx resp (some n) fuel = some s →
      s.length ≤ n)
    ∧ (∀ (resp : Nat → StreamPage) (k fuel : Nat),
      (∀ j, j < k → tokenFalsy (resp j).nextToken = false) →
      tokenFalsy (resp k).nextToken = true → k < fuel →
      findLogStreamsByPfx resp none fuel = some (pagesFrom resp 0 (k + 1))) := by
  constructor
  · exact fun resp n fuel s hn h => findStreams_limit_le resp n fuel s hn h
  · intro resp k fuel hf hl hk
    unfold findLogStreamsByPfx
    rw [findLoop_exhaust resp k hf hl fuel 0 [] (Nat.zero_le k) (by omega)]
    simp [limitTruthy]

/-- Stub collaborator for the C8 witness: two pages, the first with a
continuation token, the second without. -/
def respC8 : Nat → StreamPage :=
  fun i => if i = 0 then ⟨["a"], some "t"⟩ else ⟨["b"], none⟩

/-- Witness for C8_theorem: the truncation branch at limit 1, and the
exhaustion equation on the two-page stub. -/
theorem C8_witness :
    ((["a"] : List String).length ≤ 1)
    ∧ findLogStreamsByPfx respC8 none 2 = some (pagesFrom respC8 0 2) :=
  ⟨C8_theorem.1 (fun _ => ⟨["a", "b"], none⟩) 1 1 ["a"] (by omega) rfl,
   C8_theorem.2 respC8 1 2
     (fun j hj => by
       have hj0 : j = 0 := by omega
       subst hj0
       rfl)
     rfl (by omega)⟩

/-- Claim C9 is false as stated: a nested mapping that is the value of a
schema field is converted wholesale.  Under the run schema the metrics
field's dict value is replaced by its Python string repr, so the depth-1
mapping (and its key a) is gone from the output — key sets are not
preserved at every nesting depth. -/
theorem C9_counterexample :
    convert_data_types
        (.dict (.cons "metrics" (.dict (.cons "a" (.int 1) .nil)) .nil))
        RUN_MANIFEST_SCHEMA
      = .ok (.dict (.cons "metrics"
          (.str ("\x7b" ++ sglQuote ++ "a" ++ sglQuote ++ ": 1\x7d")) .nil), [])
    ∧ isContainer
        (.str ("\x7b" ++ sglQuote ++ "a" ++ sglQuote ++ ": 1\x7d")) = false :=
  ⟨rfl, rfl⟩

/-- Claim C9 (corrected): every mapping the engine actually recurses into
keeps its key list exactly and every sequence keeps its length exactly —
coercion never inserts, removes, or renames keys and never adds or drops
elements at the level it processes; only a container that is itself the
value of a schema field is replaced wholesale by the converted scalar. -/
theorem C9_theorem :
    (∀ (tm : Schema) (fs : PyFields) (d : PyVal) (ws : List String),
      convert_data_types (.dict fs) tm = .ok (d, ws) →
      ∃ r, d = .dict r ∧ fieldsKeys r = fieldsKeys fs)
    ∧ (∀ (tm : Schema) (xs : PyItems) (d : PyVal) (ws : List String),
      convert_data_types (.list xs) tm = .ok (d, ws) →
      ∃ r, d = .list r ∧ itemsLen r = itemsLen xs) := by
  constructor
  · intro tm fs d ws h
    rw [convert_data_types] at h
    cases hfs : convertFields fs tm with
    | error e => rw [hfs] at h; simp at h
    | ok p =>
      obtain ⟨r, ws2⟩ := p
      rw [hfs] at h
      simp at h
      exact ⟨r, h.1.symm, convertFields_keys tm fs r ws2 hfs⟩
  · intro tm xs d ws h
    rw [convert_data_types] at h
    cases hxs : convertItems xs tm with
    | error e => rw [hxs] at h; simp at h
    | ok p =>
      obtain ⟨r, ws2⟩ := p
      rw [hxs] at h
      simp at h
      exact ⟨r, h.1.symm, convertItems_len tm xs r ws2 hxs⟩

/-- Witness for C9_theorem at a concrete one-field dict whose value is
converted in place (string 2 to integer 2, key list unchanged). -/
theorem C9_witness :
    ∃ r, PyVal.dict (.cons "cpus" (.int 2) .nil) = .dict r
      ∧ fieldsKeys r = fieldsKeys (.cons "cpus" (.str "2") .nil) :=
  C9_theorem.1 TASK_MANIFEST_SCHEMA (.cons "cpus" (.str "2") .nil)
    (.dict (.cons "cpus" (.int 2) .nil)) [] rfl

/-- Run-classified records used in the C10 witness, with distinct run ids
embedded in their arns. -/
def mA : PyVal :=
  .dict (.cons "arn" (.str "arn:aws:omics:us-east-1:1:run/111") .nil)

/-- Second record for the C10 witness. -/
def mB : PyVal :=
  .dict (.cons "arn" (.str "arn:aws:omics:us-east-1:1:run/222") .nil)

/-- Claim C10 (confirmed): every run-classified record found in the stream
is written to the single key built from the inbound event's runId — the
run id inside the record's own arn plays no part in the key — and under
full-overwrite semantics the content finally visible at that key is the
normalization of the last such record. -/
theorem C10_theorem (b pfx rid : String) (msgs : List PyVal)
    (h : ∀ m ∈ msgs, ∃ a, pySubscript m "arn" = .ok (.str a) ∧
      strContains a ":run/" = true) :
    processEvents b (s3KeyRun pfx rid) pfx msgs
      = (msgs.map (fun m => ⟨b, s3KeyRun pfx rid, runNorm m⟩), none)
    ∧ lastWriteAt (msgs.map (fun m => ⟨b, s3KeyRun pfx rid, runNorm m⟩))
        (s3KeyRun pfx rid)
      = (msgs.getLast?).map runNorm :=
  ⟨processEvents_run_all b (s3KeyRun pfx rid) pfx msgs h,
   lastWriteAt_map_const b (s3KeyRun pfx rid) runNorm msgs⟩

/-- Witness for C10_theorem on two concrete run records with different arn
run ids: both writes target the runs/r-1 key and the second record wins. -/
theorem C10_witness :
    processEvents "b" (s3KeyRun "p" "r-1") "p" [mA, mB]
      = ([⟨"b", s3KeyRun "p" "r-1", runNorm mA⟩,
          ⟨"b", s3KeyRun "p" "r-1", runNorm mB⟩], none)
    ∧ lastWriteAt [⟨"b", s3KeyRun "p" "r-1", runNorm mA⟩,
        ⟨"b", s3KeyRun "p" "r-1", runNorm mB⟩] (s3KeyRun "p" "r-1")
      = some (runNorm mB) := by
  have hyp : ∀ m ∈ ([mA, mB] : List PyVal),
      ∃ a, pySubscript m "arn" = Except.ok (.str a) ∧
        strContains a ":run/" = true := by
    intro m hm
    simp [List.mem_cons] at hm
    rcases hm with rfl | rfl
    · exact ⟨"arn:aws:omics:us-east-1:1:run/111", rfl, rfl⟩
    · exact ⟨"arn:aws:omics:us-east-1:1:run/222", rfl, rfl⟩
  exact C10_theorem "b" "p" "r-1" [mA, mB] hyp
